import Mathlib

/-!
Verification of the `query` package of Stratoscale/swagger: a shallow
embedding of the schema compiler (builder.go, config.go) and the request
translator (Builder.Parse and its helpers), together with theorems about
the properties the specification states.

Go strings are modelled as Lean `String`, `url.Values` as an association
list from keys to value lists, `interface{}` values appended to the bound
value sequence as the closed inductive `Val`, and functions returning
`(T, error)` / panicking as `Except`.
-/

namespace SwaggerQuery

/-- A parsed `time.Time` value: year, month, day, hour, minute, second,
fractional-second digits and the zone offset in minutes east of UTC. -/
structure GoTime where
  year : Nat
  month : Nat
  day : Nat
  hour : Nat
  minute : Nat
  second : Nat
  frac : Nat
  zoneMinutes : Int
deriving Repr, DecidableEq

/-- The dynamic values that the builder appends to the bound-value sequence
(`CondVal`).  In Go these are `interface{}` values: strings (from
`parseString`, `parseLikeString` and `parseBool`), `int` and `int64`
(from `parseInt` / `parseInt64`), and `time.Time` / `*time.Time` values
(from `parseDate` / `parseDatePointer`). -/
inductive Val where
  | str (s : String)
  | int (n : Int)
  | int64 (n : Int)
  | time (t : GoTime)
  | timePtr (t : GoTime)
deriving Repr, DecidableEq

/-- Structure `ParseError` from builder.go: a typed error carrying a message. -/
structure ParseError where
  msg : String
deriving Repr, DecidableEq

/-- A multi-valued parameter map, the model of `url.Values`
(`map[string][]string`). -/
def Params := List (String × List String)

/-- Lookup `params[k]` with its `ok` flag: the value list when the key is present. -/
def getAllParams (params : Params) (k : String) : Option (List String) :=
  (List.find? (fun p => p.1 == k) params).map (fun p => p.2)

/-- Model of `url.Values.Get`: the first value for the key, or `""` when the key is
absent or has no values. -/
def getParam (params : Params) (k : String) : String :=
  match getAllParams params k with
  | some (v :: _) => v
  | _ => ""

/-! ### Models of the Go standard-library string and number helpers -/

/-- Model of `strings.Join(elems, sep)`. -/
def joinSep (sep : String) : List String → String
  | [] => ""
  | [s] => s
  | s :: rest => s ++ sep ++ joinSep sep rest

/-- Splitting a character list at every occurrence of `sep`. -/
def splitOnCharList (sep : Char) : List Char → List (List Char)
  | [] => [[]]
  | c :: rest =>
    if c == sep then [] :: splitOnCharList sep rest
    else
      match splitOnCharList sep rest with
      | [] => [[c]]
      | g :: gs => (c :: g) :: gs

/-- Model of `strings.Split(s, sep)` for a one-character separator (the only form the
source uses: it splits on `","` and on `";"`). -/
def goSplit (s : String) (sep : Char) : List String :=
  (splitOnCharList sep s.toList).map String.mk

/-- Model of `strings.Contains(s, sub)` for a one-character substring (the source only
tests for `","`). -/
def containsChar (s : String) (c : Char) : Bool :=
  s.toList.any (fun x => x == c)

/-- Model of `strings.HasPrefix(s, p)`. -/
def goHasPref (s p : String) : Bool :=
  List.isPrefixOf p.toList s.toList

/-- Model of `strings.TrimPrefix(s, p)`. -/
def trimPref (s p : String) : String :=
  if goHasPref s p then String.mk (s.toList.drop p.toList.length) else s

/-- Model of `strconv.Atoi`: an optional sign followed by at least one decimal digit,
rejecting values outside the 64-bit signed range. -/
def atoi (s : String) : Option Int :=
  match s.toList with
  | [] => none
  | c :: rest =>
    let signDigits : Bool × List Char :=
      if c == '-' then (true, rest)
      else if c == '+' then (false, rest)
      else (false, c :: rest)
    let neg := signDigits.1
    let ds := signDigits.2
    if ds.isEmpty then none
    else if ds.all Char.isDigit then
      let n : Nat := ds.foldl (fun acc d => acc * 10 + (d.toNat - 48)) 0
      let v : Int := if neg then -(n : Int) else (n : Int)
      if v < -(2 : Int) ^ 63 || (2 : Int) ^ 63 - 1 < v then none else some v
    else none

/-- Model of `strconv.ParseBool`: the accepted boolean literals. -/
def goParseBool (s : String) : Option Bool :=
  if s == "1" || s == "t" || s == "T" || s == "TRUE" || s == "true" || s == "True" then some true
  else if s == "0" || s == "f" || s == "F" || s == "FALSE" || s == "false" || s == "False" then
    some false
  else none

/-! ### Model of `time.Parse(time.RFC3339, s)` from the Go standard library -/

def isLeapYear (y : Nat) : Bool :=
  y % 4 == 0 && (y % 100 != 0 || y % 400 == 0)

def daysInMonth (y m : Nat) : Nat :=
  if m == 2 then (if isLeapYear y then 29 else 28)
  else if m == 4 || m == 6 || m == 9 || m == 11 then 30
  else 31

def charDigit (c : Char) : Option Nat :=
  if c.isDigit then some (c.toNat - 48) else none

def twoDigits (a b : Char) : Option Nat :=
  match charDigit a, charDigit b with
  | some x, some y => some (x * 10 + y)
  | _, _ => none

def natOfDigits (l : List Char) : Nat :=
  l.foldl (fun acc d => acc * 10 + (d.toNat - 48)) 0

/-- The timezone suffix of an RFC3339 timestamp: `Z` or `±hh:mm`,
as minutes east of UTC. -/
def parseZoneChars : List Char → Option Int
  | ['Z'] => some 0
  | ['+', a, b, ':', c, d] =>
    match twoDigits a b, twoDigits c d with
    | some h, some m => if h ≤ 23 && m ≤ 59 then some ((h * 60 + m : Nat) : Int) else none
    | _, _ => none
  | ['-', a, b, ':', c, d] =>
    match twoDigits a b, twoDigits c d with
    | some h, some m => if h ≤ 23 && m ≤ 59 then some (-((h * 60 + m : Nat) : Int)) else none
    | _, _ => none
  | _ => none

/-- Optional fractional seconds followed by the timezone. -/
def parseFracZone : List Char → Option (Nat × Int)
  | '.' :: rest =>
    let ds := rest.takeWhile Char.isDigit
    if ds.isEmpty then none
    else (parseZoneChars (rest.dropWhile Char.isDigit)).map (fun z => (natOfDigits ds, z))
  | l => (parseZoneChars l).map (fun z => (0, z))

/-- Models `time.Parse(time.RFC3339, s)`: a full date-time with ranges
checked, optional fractional seconds and a mandatory zone. -/
def parseRFC3339 (s : String) : Option GoTime :=
  match s.toList with
  | y1 :: y2 :: y3 :: y4 :: '-' :: mo1 :: mo2 :: '-' :: d1 :: d2 :: 'T' ::
      h1 :: h2 :: ':' :: mi1 :: mi2 :: ':' :: se1 :: se2 :: rest =>
    match twoDigits y1 y2, twoDigits y3 y4, twoDigits mo1 mo2, twoDigits d1 d2,
        twoDigits h1 h2, twoDigits mi1 mi2, twoDigits se1 se2, parseFracZone rest with
    | some yh, some yl, some mo, some dy, some hr, some mi, some se, some (fr, z) =>
      let yr := yh * 100 + yl
      if 1 ≤ mo && mo ≤ 12 && 1 ≤ dy && dy ≤ daysInMonth yr mo &&
          hr ≤ 23 && mi ≤ 59 && se ≤ 59 then
        some ⟨yr, mo, dy, hr, mi, se, fr, z⟩
      else none
    | _, _, _, _, _, _, _, _ => none
  | _ => none

/-! ### The filter value parsers (bottom of builder.go) -/

/-- Parser `parseInt`: empty is rejected, otherwise `strconv.Atoi`. -/
def parseInt (s : String) : Option Val :=
  if s == "" then none else (atoi s).map Val.int

/-- Parser `parseInt64`: empty is rejected, otherwise `strconv.ParseInt(s, 10, 64)`. -/
def parseInt64 (s : String) : Option Val :=
  if s == "" then none else (atoi s).map Val.int64

/-- Parser `parseString`: returns the string itself, rejecting the empty string. -/
def parseString (s : String) : Option Val :=
  if s != "" then some (Val.str s) else none

/-- Parser `parseLikeString`: wraps the value in percent wildcards, rejecting the
empty string. -/
def parseLikeString (s : String) : Option Val :=
  if s != "" then some (Val.str ("%" ++ s ++ "%")) else none

/-- Parser `parseDate`: `time.Parse(time.RFC3339, s)`. -/
def parseDate (s : String) : Option Val :=
  (parseRFC3339 s).map Val.time

/-- Parser `parseDatePointer`: like `parseDate` but yields a `*time.Time`. -/
def parseDatePointer (s : String) : Option Val :=
  match parseRFC3339 s with
  | none => none
  | some t => some (Val.timePtr t)

/-- Parser `parseBool`: rejects empty strings and anything `strconv.ParseBool`
rejects, and otherwise returns the original raw string (not the parsed
boolean). -/
def parseBool (s : String) : Option Val :=
  if s == "" then none
  else
    match goParseBool s with
    | none => none
    | some _ => some (Val.str s)

/-! ### The compiled tables and the builder (builder.go, config.go) -/

/-- An entry of the compiled filter-field table: SQL fragment template,
value parser, wrap transform and the comma-split flag. -/
structure FilterField where
  exp : String
  parse : String → Option Val
  wrap : String → String
  splitOnComma : Bool

/-- Function `nopWrapper`: the identity wrap transform. -/
def nopWrapper : String → String := fun s => s

/-- Constants from config.go: struct-tag markers and query-string operators. -/
def sortTag : String := "sort"

def filterTag : String := "filter"

def paramTag : String := "param"

/-- Modelled from the spec: the struct-tag marker for the comma-split
capability.  Its defining constant is referenced by builder.go
(`contains(options, splitTag)`) but is absent from the sources provided. -/
def splitTag : String := "split"

/-- Modelled from the spec: the struct-tag marker for the "detailed"
default-select exclusion.  Its defining constant is referenced by
builder.go (`contains(options, detailedTag)`) but is absent from the
sources provided. -/
def detailedTag : String := "detailed"

def searchParam : String := "search"

def opEqual : String := "eq"

def opNotEqual : String := "neq"

def opLike : String := "like"

def opLessThan : String := "lt"

def opGreaterThan : String := "gt"

def opLessThanOrEqual : String := "lte"

def opGreaterThanOrEqual : String := "gte"

/-- The value type of a model field, as discriminated by the type switch in
`parseField`.  The `other` case records the reflective capabilities the
default branch tests: convertibility to `string`, to `*string`, to
`[]string`, and `fmt.Stringer`. -/
inductive FieldType where
  | tString
  | tStringPtr
  | tInt
  | tIntPtr
  | tInt64
  | tInt64Ptr
  | tTime
  | tTimePtr
  | tBool
  | tBoolPtr
  | other (convString convStringPtr convStringSlice isStringer : Bool)
deriving Repr, DecidableEq

/-- A leaf struct field of the model: its Go name, value type, struct tags
and the optional `Wrapper` implementation of its value. -/
structure LeafField where
  name : String
  typ : FieldType
  tags : List (String × String)
  wrapper : Option (String → String)

/-- A model struct field: either a leaf or an embedded struct whose fields
are flattened by `init`. -/
inductive ModelFieldT where
  | leaf (f : LeafField)
  | embedded (fields : List ModelFieldT)

/-- The model definition handed to the builder: its (possibly embedded)
fields and its optional `Searcher` implementation. -/
structure ModelT where
  fields : List ModelFieldT
  searcher : Option (String → String × List Val)

/-- Structure `Config` for the builder constructor.  `ExplicitSelect` and
`OnlySelectNonDetailedFields` are referenced by builder.go but their
declarations are absent from the sources provided; they are modelled from
the spec as the select-list emission policy flags. -/
structure Config where
  Model : Option ModelT := none
  TagName : String := ""
  Separator : String := ""
  IgnoreSort : Bool := false
  SortParam : String := ""
  DefaultSort : String := ""
  LimitParam : String := ""
  DefaultLimit : Int := 0
  LimitMaxValue : Int := 0
  OffsetParam : String := ""
  SearchOperator : String := ""
  ExplicitSelect : Bool := false
  OnlySelectNonDetailedFields : Bool := false

def defaultString (s v : String) : String :=
  if s == "" then v else s

def defaultInt (i v : Int) : Int :=
  if i == 0 then v else i

/-- The default-filling part of `Config.defaults` (its only error, a missing
model, is checked separately by `NewBuilder` in this embedding). -/
def Config.fillDefaults (c : Config) : Config :=
  { c with
    TagName := defaultString c.TagName "query"
    Separator := defaultString c.Separator "_"
    SortParam := defaultString c.SortParam "sort"
    LimitParam := defaultString c.LimitParam "limit"
    OffsetParam := defaultString c.OffsetParam "offset"
    SearchOperator := defaultString c.SearchOperator "AND"
    DefaultLimit := defaultInt c.DefaultLimit 25
    LimitMaxValue := defaultInt c.LimitMaxValue 100 }

/-- The compiled builder: the configuration plus the sort-field set, the
filter-field table and the select-field list. -/
structure Builder where
  TagName : String
  Separator : String
  IgnoreSort : Bool
  SortParam : String
  DefaultSort : String
  LimitParam : String
  DefaultLimit : Int
  LimitMaxValue : Int
  OffsetParam : String
  SearchOperator : String
  ExplicitSelect : Bool
  OnlySelectNonDetailedFields : Bool
  searcher : Option (String → String × List Val)
  sortFields : List String
  filterFields : List (String × FilterField)
  selectFields : List String

/-- Map assignment `m[k] = v` on the association-list model of the
filter-field map: replaces the entry when the key exists, appends
otherwise. -/
def setAssoc (l : List (String × FilterField)) (k : String) (v : FilterField) :
    List (String × FilterField) :=
  if l.any (fun p => p.1 == k) then
    l.map (fun p => if p.1 == k then (k, v) else p)
  else l ++ [(k, v)]

/-- Map lookup on the filter-field table. -/
def lookupAssoc (l : List (String × FilterField)) (k : String) : Option FilterField :=
  (List.find? (fun p => p.1 == k) l).map (fun p => p.2)

/-- Models `gorm.ToDBName` from the external gorm dependency: snake-cases a
Go field name (without gorm's common-initialism table). -/
def snakeAux : Bool → List Char → List Char
  | _, [] => []
  | prevLower, c :: rest =>
    if c.isUpper then
      (if prevLower then ['_', c.toLower] else [c.toLower]) ++ snakeAux false rest
    else c :: snakeAux (c.isLower || c.isDigit) rest

/-- Models `gorm.ToDBName` from the external gorm dependency. -/
def toDBName (s : String) : String :=
  String.mk (snakeAux false s.toList)

/-- Model of `field.Tag(name)`: the raw tag string for the given tag name, `""` when
the tag is absent. -/
def tagOf (tags : List (String × String)) (name : String) : String :=
  match List.find? (fun p => p.1 == name) tags with
  | some p => p.2
  | none => ""

/-- Helper `contains` from builder.go: membership by equality or prefix. -/
def contains (l : List String) (s : String) : Bool :=
  l.any (fun x => x == s || goHasPref x s)

/-- Helper `hasQueryParam`: the custom query-parameter name, when an option starts
with the param tag. -/
def hasQueryParam (l : List String) : Option String :=
  match List.find? (fun s => goHasPref s paramTag) l with
  | some s => some (trimPref s (paramTag ++ "="))
  | none => none

/-- Constant `ignoreOptions` from builder.go: gorm options that exclude a field from
the select list. -/
def ignoreOptions : List String :=
  ["-", "foreignkey", "association_foreignkey", "many2many"]

/-- Method `appendToSelect`. -/
def Builder.appendToSelect (b : Builder) (colName : String)
    (gormOptions options : List String) : Builder :=
  if ignoreOptions.any (fun s => contains gormOptions s) then b
  else if b.OnlySelectNonDetailedFields && contains options detailedTag then b
  else { b with selectFields := b.selectFields ++ [colName] }

/-- Method `addFilterField` (with an explicit wrap transform). -/
def Builder.addFilterFieldW (b : Builder) (name format : String)
    (parse : String → Option Val) (splitOnComma : Bool) (wrap : String → String) : Builder :=
  { b with filterFields := setAssoc b.filterFields name ⟨format, parse, wrap, splitOnComma⟩ }

/-- Method `addFilterField` without the variadic wrap argument: `nopWrapper`. -/
def Builder.addFilterField (b : Builder) (name format : String)
    (parse : String → Option Val) (splitOnComma : Bool) : Builder :=
  b.addFilterFieldW name format parse splitOnComma nopWrapper

/-- Method `addFilterFieldsForNumericFields`. -/
def Builder.addFilterFieldsForNumericFields (b : Builder) (withSep colName : String)
    (parse : String → Option Val) (splitOnComma : Bool) : Builder :=
  (((((b.addFilterField colName (colName ++ " = ?") parse splitOnComma
    |>.addFilterField (withSep ++ opEqual) (colName ++ " = ?") parse splitOnComma)
    |>.addFilterField (withSep ++ opNotEqual) (colName ++ " <> ?") parse splitOnComma)
    |>.addFilterField (withSep ++ opLessThan) (colName ++ " < ?") parse splitOnComma)
    |>.addFilterField (withSep ++ opLessThanOrEqual) (colName ++ " <= ?") parse splitOnComma)
    |>.addFilterField (withSep ++ opGreaterThan) (colName ++ " > ?") parse splitOnComma)
    |>.addFilterField (withSep ++ opGreaterThanOrEqual) (colName ++ " >= ?") parse splitOnComma

/-- Method `addFilterFieldsForBoolFields`. -/
def Builder.addFilterFieldsForBoolFields (b : Builder) (withSep colName : String)
    (parse : String → Option Val) (splitOnComma : Bool) : Builder :=
  (b.addFilterField colName (colName ++ " = ?") parse splitOnComma
    |>.addFilterField (withSep ++ opEqual) (colName ++ " = ?") parse splitOnComma)
    |>.addFilterField (withSep ++ opNotEqual) (colName ++ " <> ?") parse splitOnComma

/-- Method `addStringField`: the three string operators plus LIKE, all carrying the
field wrap transform. -/
def Builder.addStringField (b : Builder) (colName withSep : String)
    (splitOnComma : Bool) (wrap : String → String) : Builder :=
  ((b.addFilterFieldW colName (colName ++ " = ?") parseString splitOnComma wrap
    |>.addFilterFieldW (withSep ++ opEqual) (colName ++ " = ?") parseString splitOnComma wrap)
    |>.addFilterFieldW (withSep ++ opNotEqual) (colName ++ " <> ?") parseString splitOnComma wrap)
    |>.addFilterFieldW (withSep ++ opLike) (colName ++ " LIKE ?") parseLikeString splitOnComma wrap

/-- Method `parseField`: sort and filter registration for one leaf field.  The
default branch of the type switch, which panics in Go on an unsupported
value type, is modelled as an error. -/
def Builder.parseField (b : Builder) (field : LeafField) : Except String Builder :=
  let colName := toDBName field.name
  let options := goSplit (tagOf field.tags b.TagName) ','
  let gormOptions := goSplit (tagOf field.tags "gorm") ';'
  let b := if b.ExplicitSelect then b.appendToSelect colName gormOptions options else b
  let b := if contains options sortTag then { b with sortFields := b.sortFields ++ [colName] } else b
  if !contains options filterTag then .ok b
  else
    let splitOnComma := contains options splitTag
    let colName :=
      match hasQueryParam options with
      | some p => p
      | none => colName
    let wrapFn := field.wrapper.getD nopWrapper
    let withSep := colName ++ b.Separator
    match field.typ with
    | .tString | .tStringPtr => .ok (b.addStringField colName withSep splitOnComma wrapFn)
    | .tInt | .tIntPtr => .ok (b.addFilterFieldsForNumericFields withSep colName parseInt splitOnComma)
    | .tInt64 | .tInt64Ptr => .ok (b.addFilterFieldsForNumericFields withSep colName parseInt64 splitOnComma)
    | .tTime => .ok (b.addFilterFieldsForNumericFields withSep colName parseDate splitOnComma)
    | .tTimePtr => .ok (b.addFilterFieldsForNumericFields withSep colName parseDatePointer splitOnComma)
    | .tBool | .tBoolPtr => .ok (b.addFilterFieldsForBoolFields withSep colName parseBool splitOnComma)
    | .other convString convStringPtr convStringSlice isStringer =>
      if convString || convStringPtr then .ok (b.addStringField colName withSep splitOnComma wrapFn)
      else if convStringSlice then .ok (b.addStringField colName withSep splitOnComma wrapFn)
      else if isStringer then .ok (b.addStringField colName withSep splitOnComma wrapFn)
      else .error ("Could not use field " ++ field.name ++ " with query filter")

/-- The worklist loop of `init`: fields of the current group are handled in
order; an embedded struct pushes its fields onto the front of the pending
group list, to be processed after the current group. -/
def initLoop (b : Builder) : List ModelFieldT → List (List ModelFieldT) → Except String Builder
  | [], [] => .ok b
  | [], g :: pending => initLoop b g pending
  | .leaf f :: rest, pending =>
    match b.parseField f with
    | .error e => .error e
    | .ok b2 => initLoop b2 rest pending
  | .embedded fs :: rest, pending => initLoop b rest (fs :: pending)
termination_by cur pending => sizeOf cur + sizeOf pending
decreasing_by all_goals (simp_wf <;> simp_arith)

/-- Constructor `NewBuilder`: checks the configuration (a missing model is the
configuration error of `Config.defaults`), applies the defaults, promotes
`OnlySelectNonDetailedFields` to `ExplicitSelect`, detects the model's
`Searcher` implementation, and runs `init` over the model fields. -/
def NewBuilder (c : Config) : Except String Builder :=
  match c.Model with
  | none => .error "query: Model is a required field"
  | some m =>
    let c := c.fillDefaults
    let c := if c.OnlySelectNonDetailedFields then { c with ExplicitSelect := true } else c
    let b : Builder :=
      { TagName := c.TagName
        Separator := c.Separator
        IgnoreSort := c.IgnoreSort
        SortParam := c.SortParam
        DefaultSort := c.DefaultSort
        LimitParam := c.LimitParam
        DefaultLimit := c.DefaultLimit
        LimitMaxValue := c.LimitMaxValue
        OffsetParam := c.OffsetParam
        SearchOperator := c.SearchOperator
        ExplicitSelect := c.ExplicitSelect
        OnlySelectNonDetailedFields := c.OnlySelectNonDetailedFields
        searcher := m.searcher
        sortFields := []
        filterFields := []
        selectFields := [] }
    initLoop b m.fields []

/-! ### The request translator (`Builder.Parse` and its helpers) -/

/-- The query descriptor `DBQuery`. -/
structure DBQuery where
  Limit : Int := 0
  Offset : Int := 0
  «Sort» : String := ""
  CondExp : String := ""
  CondVal : List Val := []
  Select : String := ""
deriving Repr, DecidableEq

/-- Method `DBQuery.And`: appends an expression to the current where statement with
an AND condition, and its values to the bound-value sequence. -/
def DBQuery.And (q : DBQuery) (exp : String) (vals : List Val) : DBQuery :=
  let condExp := if q.CondExp != "" then q.CondExp ++ " AND " else q.CondExp
  { q with CondExp := condExp ++ exp, CondVal := q.CondVal ++ vals }

/-- Helper `parseNumber`: integer parse plus bound checks (`max = -1` disables the
upper bound). -/
def parseNumber (k v : String) (min max : Int) : Except ParseError Int :=
  match atoi v with
  | none => .error ⟨"invalid value(" ++ v ++ ") for key " ++ k⟩
  | some n =>
    if n < min then
      .error ⟨"value for key " ++ k ++ " must be greater than or equal to " ++ toString min⟩
    else if max != -1 && n > max then
      .error ⟨"value for key " ++ k ++ " must be less than or equal to " ++ toString max⟩
    else .ok n

/-- Table `sortDirections` from config.go: the order indicator prefixes. -/
def sortDirections (c : Char) : Option String :=
  if c == '+' then some "asc" else if c == '-' then some "desc" else none

/-- The order indicator of a sort token, read from its first character. -/
def firstCharDirection (s : String) : Option String :=
  match s.toList with
  | [] => none
  | c :: _ => sortDirections c

/-- One iteration of the `parseSort` loop: an empty token errors, a leading
order indicator is stripped, the remaining name is validated against the
sort-field set, and the direction suffix is appended when an indicator
was present. -/
def parseSortToken (sortFields : List String) (field : String) : Except ParseError String :=
  if field == "" then .error ⟨"missing sort parameter"⟩
  else
    match field.toList with
    | [] => .error ⟨"missing sort parameter"⟩
    | c :: rest =>
      match sortDirections c with
      | some orderBy =>
        let fld := String.mk rest
        if !sortFields.contains fld then
          .error ⟨"invalid sort parameter " ++ fld⟩
        else .ok (fld ++ " " ++ orderBy)
      | none =>
        if !sortFields.contains field then
          .error ⟨"invalid sort parameter " ++ field⟩
        else .ok field

/-- The token results of `parseSort`, in request order. -/
def parseSortTokens (sortFields : List String) : List String → Except ParseError (List String)
  | [] => .ok []
  | field :: rest =>
    match parseSortToken sortFields field with
    | .error e => .error e
    | .ok s =>
      match parseSortTokens sortFields rest with
      | .error e => .error e
      | .ok ss => .ok (s :: ss)

/-- Method `parseSort`: validates every token and joins the results with `", "`. -/
def Builder.parseSort (b : Builder) (fields : List String) : Except ParseError String :=
  match parseSortTokens b.sortFields fields with
  | .error e => .error e
  | .ok ss => .ok (joinSep ", " ss)

/-- The comma-split step of `parseFilter`: a single supplied value containing
a comma is split when the field allows it. -/
def splitArgs (filter : FilterField) (args : List String) : List String :=
  if filter.splitOnComma && args.length == 1 && containsChar (args.headD "") ',' then
    goSplit (args.headD "") ','
  else args

/-- The inner loop of `parseFilter` over one key's values: parses each value
(a failure aborts with a validation error naming the key), collecting the
parsed values and one copy of the fragment template per value. -/
def parseFilterArgs (filter : FilterField) (name : String) :
    List String → Except ParseError (List Val × List String)
  | [] => .ok ([], [])
  | arg :: rest =>
    match filter.parse arg with
    | none => .error ⟨"invalid parameter for key " ++ name⟩
    | some v =>
      match parseFilterArgs filter name rest with
      | .error e => .error e
      | .ok (vs, es) => .ok (v :: vs, filter.exp :: es)

/-- The per-key step of `parseFilter`: comma-split, per-value parsing,
OR-joining (parenthesized when more than one fragment), and the wrap
transform. -/
def parseFilterKey (filter : FilterField) (name : String) (args : List String) :
    Except ParseError (String × List Val) :=
  let args := splitArgs filter args
  match parseFilterArgs filter name args with
  | .error e => .error e
  | .ok (vals, expArgs) =>
    let exp := joinSep " OR " expArgs
    let exp := if expArgs.length > 1 then "(" ++ exp ++ ")" else exp
    .ok (filter.wrap exp, vals)

/-- The loop of `parseFilter` over the filter-field table: keys absent from
the request are skipped; per-key expressions and values are collected in
table order. -/
def parseFilterFields (params : Params) :
    List (String × FilterField) → Except ParseError (List String × List Val)
  | [] => .ok ([], [])
  | (name, filter) :: rest =>
    match getAllParams params name with
    | none => parseFilterFields params rest
    | some args =>
      match parseFilterKey filter name args with
      | .error e => .error e
      | .ok (e, vs) =>
        match parseFilterFields params rest with
        | .error e => .error e
        | .ok (es, vss) => .ok (e :: es, vs ++ vss)

/-- Method `parseFilter`: the condition expression (AND-joined per-key expressions)
and condition values. -/
def Builder.parseFilter (b : Builder) (params : Params) :
    Except ParseError (String × List Val) :=
  match parseFilterFields params b.filterFields with
  | .error e => .error e
  | .ok (es, vs) => .ok (joinSep " AND " es, vs)

/-- The buffer loop of `parseSearch`: per-term expressions joined by the
search operator with surrounding spaces, values collected in term
order. -/
def searchBody (op : String) (search : String → String × List Val) :
    List String → String × List Val
  | [] => ("", [])
  | [t] => search t
  | t :: rest =>
    let r := search t
    let r2 := searchBody op search rest
    (r.1 ++ " " ++ op ++ " " ++ r2.1, r.2 ++ r2.2)

/-- Method `parseSearch`: the combined search expression, parenthesized when more
than one term was supplied. -/
def parseSearch (op : String) (search : String → String × List Val)
    (terms : List String) : String × List Val :=
  let r := searchBody op search terms
  if terms.length > 1 then ("(" ++ r.1 ++ ")", r.2) else r

/-- The limit block of `Parse`: a present, non-empty limit parameter is
bound-checked by `parseNumber`; otherwise the configured default. -/
def Builder.parseLimitParam (b : Builder) (params : Params) : Except ParseError Int :=
  let v := getParam params b.LimitParam
  if v != "" then parseNumber b.LimitParam v 0 b.LimitMaxValue else .ok b.DefaultLimit

/-- The offset block of `Parse`: minimum 0, no maximum; absent means 0. -/
def Builder.parseOffsetParam (b : Builder) (params : Params) : Except ParseError Int :=
  let v := getParam params b.OffsetParam
  if v != "" then parseNumber b.OffsetParam v 0 (-1) else .ok 0

/-- The sort block of `Parse`: runs `parseSort` when sorting is not ignored
and the sort parameter is present; otherwise the configured default. -/
def Builder.parseSortParam (b : Builder) (params : Params) : Except ParseError String :=
  match getAllParams params b.SortParam with
  | some fields => if !b.IgnoreSort then b.parseSort fields else .ok b.DefaultSort
  | none => .ok b.DefaultSort

/-- The search block of `Parse`: when the model implements `Searcher` and the
search parameter is present, the search expression and values are added
to the descriptor with `DBQuery.And`. -/
def Builder.applySearch (b : Builder) (params : Params) (q : DBQuery) : DBQuery :=
  match getAllParams params searchParam, b.searcher with
  | some terms, some search =>
    let r := parseSearch b.SearchOperator search terms
    q.And r.1 r.2
  | _, _ => q

/-- Method `Builder.Parse`: validates limit, offset, sort and filter in that order,
returning the first validation error, and otherwise assembles the
descriptor and applies the search block. -/
def Builder.Parse (b : Builder) (params : Params) : Except ParseError DBQuery :=
  match b.parseLimitParam params with
  | .error e => .error e
  | .ok lim =>
    match b.parseOffsetParam params with
    | .error e => .error e
    | .ok off =>
      match b.parseSortParam params with
      | .error e => .error e
      | .ok srt =>
        match b.parseFilter params with
        | .error e => .error e
        | .ok (exp, val) =>
          let q : DBQuery :=
            { Limit := lim
              Offset := off
              «Sort» := srt
              CondExp := exp
              CondVal := val
              Select := joinSep "," b.selectFields }
          .ok (b.applySearch params q)

/-! ### Helper lemmas and witness fixtures -/

/-- The number of positional placeholders in a SQL fragment. -/
def placeholderCount (s : String) : Nat :=
  s.toList.countP (fun c => c == '?')

lemma toList_append (a b : String) : (a ++ b).toList = a.toList ++ b.toList := by
  simp [String.toList, String.data_append]

lemma placeholderCount_append (a b : String) :
    placeholderCount (a ++ b) = placeholderCount a + placeholderCount b := by
  simp [placeholderCount, toList_append, List.countP_append]

lemma ne_empty_of_toList_cons {s : String} {c : Char} {l : List Char}
    (h : s.toList = c :: l) : s ≠ "" := by
  intro he
  rw [he] at h
  exact List.noConfusion h

lemma beq_empty_false {s : String} (h : s ≠ "") : (s == "") = false := by
  exact beq_eq_false_iff_ne.mpr h

/-- A concrete builder used by the witnesses: sortable columns `col` and
`age`, filterable keys `age_gt` (int) and `name_eq` (string). -/
def bWitness : Builder :=
  { TagName := "query"
    Separator := "_"
    IgnoreSort := false
    SortParam := "sort"
    DefaultSort := ""
    LimitParam := "limit"
    DefaultLimit := 25
    LimitMaxValue := 100
    OffsetParam := "offset"
    SearchOperator := "AND"
    ExplicitSelect := false
    OnlySelectNonDetailedFields := false
    searcher := none
    sortFields := ["col", "age"]
    filterFields := [("age_gt", ⟨"age > ?", parseInt, nopWrapper, false⟩),
                     ("name_eq", ⟨"name = ?", parseString, nopWrapper, false⟩)]
    selectFields := [] }

/-! ### Claim C2 -/

/-- Counterexample to claim C2 as stated: with compiled sort-field set
containing `col`, parsing the single sort token `+col` yields the clause
`col asc`, not the bare clause `col` that the claim requires. -/
theorem claimC2_counterexample :
    bWitness.parseSort ["+col"] = .ok "col asc" ∧
    bWitness.parseSort ["+col"] ≠ .ok "col" := by
  refine ⟨rfl, fun h => ?_⟩
  rw [show bWitness.parseSort ["+col"] = .ok "col asc" from rfl] at h
  exact absurd (Except.ok.inj h) (by decide)

/-- Claim C2 (amended): parsing the single token `+col` yields `col asc`,
the bare token `col` yields `col`, and `-col` yields `col desc`; a name
outside the compiled sort-field set errors regardless of any leading `+`
or `-` prefix, and an empty token is a validation error. -/
theorem claimC2 (b : Builder) (col nm : String)
    (hcol : b.sortFields.contains col = true)
    (hne : col ≠ "")
    (hdir : firstCharDirection col = none)
    (hnm : b.sortFields.contains nm = false)
    (hnmne : nm ≠ "")
    (hnmdir : firstCharDirection nm = none) :
    b.parseSort ["+" ++ col] = .ok (col ++ " asc") ∧
    b.parseSort [col] = .ok col ∧
    b.parseSort ["-" ++ col] = .ok (col ++ " desc") ∧
    b.parseSort [nm] = .error ⟨"invalid sort parameter " ++ nm⟩ ∧
    b.parseSort ["+" ++ nm] = .error ⟨"invalid sort parameter " ++ nm⟩ ∧
    b.parseSort ["-" ++ nm] = .error ⟨"invalid sort parameter " ++ nm⟩ ∧
    b.parseSort [""] = .error ⟨"missing sort parameter"⟩ := by
  have hplus : ("+" ++ col).toList = '+' :: col.toList := toList_append "+" col
  have hminus : ("-" ++ col).toList = '-' :: col.toList := toList_append "-" col
  have hplusn : ("+" ++ nm).toList = '+' :: nm.toList := toList_append "+" nm
  have hminusn : ("-" ++ nm).toList = '-' :: nm.toList := toList_append "-" nm
  have hmkc : String.mk col.toList = col := rfl
  have hmkn : String.mk nm.toList = nm := rfl
  have hcolm : col ∈ b.sortFields := by
    simpa using hcol
  have hnmm : nm ∉ b.sortFields := by
    simpa using hnm
  refine ⟨?_, ?_, ?_, ?_, ?_, ?_, ?_⟩
  · simp [Builder.parseSort, parseSortTokens, parseSortToken,
      beq_empty_false (ne_empty_of_toList_cons hplus), hplus, sortDirections, hmkc, hcolm,
      joinSep, String.append_assoc]
  · rcases h : col.toList with _ | ⟨c, rest⟩
    · exact absurd (by cases col with | mk d => cases d <;> simp_all [String.toList]) hne
    · have hc : sortDirections c = none := by
        unfold firstCharDirection at hdir
        rw [h] at hdir
        exact hdir
      have hd : col.data = c :: rest := h
      simp [Builder.parseSort, parseSortTokens, parseSortToken, beq_empty_false hne,
        String.toList, hd, hc, hcolm, joinSep]
  · simp [Builder.parseSort, parseSortTokens, parseSortToken,
      beq_empty_false (ne_empty_of_toList_cons hminus), hminus, sortDirections, hmkc, hcolm,
      joinSep, String.append_assoc]
  · rcases h : nm.toList with _ | ⟨c, rest⟩
    · exact absurd (by cases nm with | mk d => cases d <;> simp_all [String.toList]) hnmne
    · have hc : sortDirections c = none := by
        unfold firstCharDirection at hnmdir
        rw [h] at hnmdir
        exact hnmdir
      have hd : nm.data = c :: rest := h
      simp [Builder.parseSort, parseSortTokens, parseSortToken, beq_empty_false hnmne,
        String.toList, hd, hc, hnmm]
  · simp [Builder.parseSort, parseSortTokens, parseSortToken,
      beq_empty_false (ne_empty_of_toList_cons hplusn), hplusn, sortDirections, hmkn, hnmm]
  · simp [Builder.parseSort, parseSortTokens, parseSortToken,
      beq_empty_false (ne_empty_of_toList_cons hminusn), hminusn, sortDirections, hmkn, hnmm]
  · rfl

/-- Witness for C2 at the concrete builder `bWitness`, the sortable column
`col` and the unknown name `bogus`. -/
theorem claimC2_witness :
    bWitness.parseSort ["+" ++ "col"] = .ok ("col" ++ " asc") ∧
    bWitness.parseSort ["col"] = .ok "col" ∧
    bWitness.parseSort ["-" ++ "col"] = .ok ("col" ++ " desc") ∧
    bWitness.parseSort ["bogus"] = .error ⟨"invalid sort parameter " ++ "bogus"⟩ ∧
    bWitness.parseSort ["+" ++ "bogus"] = .error ⟨"invalid sort parameter " ++ "bogus"⟩ ∧
    bWitness.parseSort ["-" ++ "bogus"] = .error ⟨"invalid sort parameter " ++ "bogus"⟩ ∧
    bWitness.parseSort [""] = .error ⟨"missing sort parameter"⟩ :=
  claimC2 bWitness "col" "bogus" (by decide) (by decide) (by decide) (by decide) (by decide)
    (by decide)

/-! ### Splitting lemmas shared by C3 and C8 -/

lemma splitOnCharList_no_sep (sep : Char) (l : List Char) (h : ∀ c ∈ l, ¬c = sep) :
    splitOnCharList sep l = [l] := by
  induction l with
  | nil => rfl
  | cons c rest ih =>
    have hc : (c == sep) = false := beq_eq_false_iff_ne.mpr (h c (by simp))
    have hr := ih (fun x hx => h x (by simp [hx]))
    simp [splitOnCharList, hc, hr]

lemma splitOnCharList_append_sep (sep : Char) (l r : List Char) (h : ∀ c ∈ l, ¬c = sep) :
    splitOnCharList sep (l ++ sep :: r) = l :: splitOnCharList sep r := by
  induction l with
  | nil => simp [splitOnCharList]
  | cons c rest ih =>
    have hc : (c == sep) = false := beq_eq_false_iff_ne.mpr (h c (by simp))
    have hr := ih (fun x hx => h x (by simp [hx]))
    simp only [List.cons_append, splitOnCharList, hc, Bool.false_eq_true, if_false,
      List.append_eq, hr]

lemma not_mem_of_containsChar_false {s : String} {c : Char}
    (h : containsChar s c = false) : ∀ x ∈ s.toList, ¬x = c := by
  intro x hx he
  subst he
  have : s.toList.any (fun y => y == x) = true := List.any_eq_true.mpr ⟨x, hx, by simp⟩
  rw [containsChar] at h
  rw [h] at this
  exact Bool.noConfusion this

/-- Splitting a comma-free string with `strings.Split` is the singleton list. -/
lemma goSplit_no_comma (s : String) (h : containsChar s ',' = false) :
    goSplit s ',' = [s] := by
  unfold goSplit
  rw [splitOnCharList_no_sep ',' s.toList (not_mem_of_containsChar_false h)]
  rfl

/-- Splitting two comma-free parts around a comma. -/
lemma goSplit_pair (v1 v2 : String) (h1 : containsChar v1 ',' = false)
    (h2 : containsChar v2 ',' = false) :
    goSplit (v1 ++ "," ++ v2) ',' = [v1, v2] := by
  have htl : (v1 ++ "," ++ v2).toList = v1.toList ++ ',' :: v2.toList := by
    simp [toList_append]
  rw [goSplit, htl,
    splitOnCharList_append_sep ',' v1.toList v2.toList (not_mem_of_containsChar_false h1),
    splitOnCharList_no_sep ',' v2.toList (not_mem_of_containsChar_false h2)]
  rfl

lemma toList_length_append (a b : String) :
    (a ++ b).toList.length = a.toList.length + b.toList.length := by
  simp [toList_append]

lemma beq_false_of_toList_length_ne {a b : String}
    (h : a.toList.length ≠ b.toList.length) : (a == b) = false := by
  refine beq_eq_false_iff_ne.mpr (fun he => h ?_)
  rw [he]

/-! ### Claim C3 -/

/-- A one-field model whose filterable string field `Name` declares the
custom query-parameter name `display`. -/
def c3Model : ModelT :=
  { fields := [.leaf ⟨"Name", .tString, [("query", "filter,param=display")], none⟩]
    searcher := none }

/-- Counterexample to claim C3 as stated: compiling a string field named
`Name` with custom query-parameter name `display` registers the key
`display_eq` with the SQL fragment `display = ?` — the fragment uses the
custom name, not the snake-cased logical column name `name`; the
logical-name key `name_eq` is not registered at all. -/
theorem claimC3_counterexample :
    ((NewBuilder { Model := some c3Model }).map (fun b =>
      ((lookupAssoc b.filterFields "display_eq").map (fun ff => ff.exp),
        (lookupAssoc b.filterFields "name_eq").map (fun ff => ff.exp)))) =
      .ok (some "display = ?", none) ∧
    "display = ?" ≠ "name = ?" := by
  constructor
  · simp only [NewBuilder, c3Model, Config.fillDefaults, defaultString, defaultInt]
    simp only [initLoop, Builder.parseField]
    rfl
  · decide

/-- Claim C3 (amended): for a filterable field declaring a custom
query-parameter name, the custom name replaces the derived column name
for the rest of compilation: the filter keys and the SQL fragment
templates are both built from the custom name, and the snake-cased
logical name appears in neither. -/
theorem claimC3 (b : Builder) (p fname : String)
    (hp : containsChar p ',' = false)
    (hff : b.filterFields = [])
    (hes : b.ExplicitSelect = false) :
    b.parseField ⟨fname, .tString, [(b.TagName, "filter,param=" ++ p)], none⟩ =
      .ok { b with
        filterFields := [
          (p, ⟨p ++ " = ?", parseString, nopWrapper, false⟩),
          (p ++ b.Separator ++ opEqual, ⟨p ++ " = ?", parseString, nopWrapper, false⟩),
          (p ++ b.Separator ++ opNotEqual, ⟨p ++ " <> ?", parseString, nopWrapper, false⟩),
          (p ++ b.Separator ++ opLike, ⟨p ++ " LIKE ?", parseLikeString, nopWrapper, false⟩)] } := by
  have hpm : containsChar ("param=" ++ p) ',' = false := by
    simp only [containsChar, toList_append, List.any_append, Bool.or_eq_false_iff]
    exact ⟨by decide, by simpa [containsChar] using hp⟩
  have hopts : goSplit ("filter,param=" ++ p) ',' = ["filter", "param=" ++ p] := by
    have := goSplit_pair "filter" ("param=" ++ p) (by decide) hpm
    simpa [← String.append_assoc] using this
  have htl : ("param=" ++ p).toList = 'p' :: 'a' :: 'r' :: 'a' :: 'm' :: '=' :: p.toList := by
    rw [toList_append]
    rfl
  have htag : tagOf [(b.TagName, "filter,param=" ++ p)] b.TagName = "filter,param=" ++ p := by
    simp [tagOf, List.find?]
  have hlenpm : ("param=" ++ p).toList.length = 6 + p.toList.length := by
    rw [htl]
    simp only [List.length_cons]
    omega
  have hne_sort : ("param=" ++ p) ≠ "sort" := by
    intro he
    have h2 : ("param=" ++ p).toList.length = ("sort" : String).toList.length := by rw [he]
    rw [hlenpm] at h2
    have h3 : ("sort" : String).toList.length = 4 := rfl
    omega
  have hprefsort : goHasPref ("param=" ++ p) sortTag = false := by
    simp [goHasPref, htl, sortTag, List.isPrefixOf]
  have hsort : contains ["filter", "param=" ++ p] sortTag = false := by
    simp [contains, hne_sort, hprefsort, sortTag, goHasPref, List.isPrefixOf]
  have hfil : contains ["filter", "param=" ++ p] filterTag = true := by
    simp [contains, filterTag]
  have hne_split : ("param=" ++ p) ≠ "split" := by
    intro he
    have h2 : ("param=" ++ p).toList.length = ("split" : String).toList.length := by rw [he]
    rw [hlenpm] at h2
    have h3 : ("split" : String).toList.length = 5 := rfl
    omega
  have hprefsplit : goHasPref ("param=" ++ p) splitTag = false := by
    simp [goHasPref, htl, splitTag, List.isPrefixOf]
  have hsplit : contains ["filter", "param=" ++ p] splitTag = false := by
    simp [contains, hne_split, hprefsplit, splitTag, goHasPref, List.isPrefixOf]
  have hqp : hasQueryParam ["filter", "param=" ++ p] = some p := by
    have h1 : goHasPref "filter" paramTag = false := by decide
    have h2 : goHasPref ("param=" ++ p) paramTag = true := by
      simp [goHasPref, htl, paramTag, List.isPrefixOf]
    have h3 : goHasPref ("param=" ++ p) (paramTag ++ "=") = true := by
      simp only [goHasPref, htl, paramTag, toList_append]
      simp [List.isPrefixOf]
    have h4 : ("param=" ++ p).toList.drop (paramTag ++ "=").toList.length = p.toList :=
      by rw [htl]; rfl
    simp only [hasQueryParam, List.find?, h1, h2, trimPref, h3, if_true]
    rw [h4]
    rfl
  have hkey2 : ((p : String) == p ++ b.Separator ++ opEqual) = false :=
    beq_false_of_toList_length_ne (by
      rw [toList_length_append, toList_length_append]
      have : (opEqual).toList.length = 2 := rfl
      omega)
  have hkey3 : ((p : String) == p ++ b.Separator ++ opNotEqual) = false :=
    beq_false_of_toList_length_ne (by
      rw [toList_length_append, toList_length_append]
      have : (opNotEqual).toList.length = 3 := rfl
      omega)
  have hkey4 : ((p : String) == p ++ b.Separator ++ opLike) = false :=
    beq_false_of_toList_length_ne (by
      rw [toList_length_append, toList_length_append]
      have : (opLike).toList.length = 4 := rfl
      omega)
  have hkey23 : ((p ++ b.Separator ++ opEqual) == p ++ b.Separator ++ opNotEqual) = false :=
    beq_false_of_toList_length_ne (by
      rw [toList_length_append, toList_length_append, toList_length_append,
        toList_length_append]
      have h1 : (opEqual).toList.length = 2 := rfl
      have h2 : (opNotEqual).toList.length = 3 := rfl
      omega)
  have hkey24 : ((p ++ b.Separator ++ opEqual) == p ++ b.Separator ++ opLike) = false :=
    beq_false_of_toList_length_ne (by
      rw [toList_length_append, toList_length_append, toList_length_append,
        toList_length_append]
      have h1 : (opEqual).toList.length = 2 := rfl
      have h2 : (opLike).toList.length = 4 := rfl
      omega)
  have hkey34 : ((p ++ b.Separator ++ opNotEqual) == p ++ b.Separator ++ opLike) = false :=
    beq_false_of_toList_length_ne (by
      rw [toList_length_append, toList_length_append, toList_length_append,
        toList_length_append]
      have h1 : (opNotEqual).toList.length = 3 := rfl
      have h2 : (opLike).toList.length = 4 := rfl
      omega)
  simp only [Builder.parseField, htag, hopts, hes, Bool.false_eq_true, if_false, hsort, hfil,
    hsplit, hqp, Option.getD, Builder.addStringField, Builder.addFilterFieldW, setAssoc,
    List.any_nil, List.any_cons, hff, Bool.not_true, Bool.false_or, hkey2, hkey3, hkey4,
    hkey23, hkey24, hkey34, List.nil_append, List.cons_append, Bool.or_self, Bool.or_false,
    Bool.not_false, if_true]

/-- Witness for C3 at a concrete builder with empty tables, the custom
parameter name `display` and the field name `Name`. -/
theorem claimC3_witness :
    Builder.parseField { bWitness with filterFields := [] }
        ⟨"Name", .tString,
          [({ bWitness with filterFields := [] }.TagName, "filter,param=" ++ "display")], none⟩ =
      .ok { { bWitness with filterFields := [] } with
        filterFields := [
          ("display", ⟨"display" ++ " = ?", parseString, nopWrapper, false⟩),
          ("display" ++ { bWitness with filterFields := [] }.Separator ++ opEqual,
            ⟨"display" ++ " = ?", parseString, nopWrapper, false⟩),
          ("display" ++ { bWitness with filterFields := [] }.Separator ++ opNotEqual,
            ⟨"display" ++ " <> ?", parseString, nopWrapper, false⟩),
          ("display" ++ { bWitness with filterFields := [] }.Separator ++ opLike,
            ⟨"display" ++ " LIKE ?", parseLikeString, nopWrapper, false⟩)] } :=
  claimC3 { bWitness with filterFields := [] } "display" "Name" (by decide) rfl rfl

/-! ### Claim C10 -/

/-- Claim C10: a boolean filter value is accepted exactly when it is
non-empty and is a literal `strconv.ParseBool` accepts, and the value
appended to the bound-value sequence is the original raw string, never a
converted boolean; the compiled table entries of a boolean field all
carry this parser. -/
theorem claimC10 (s : String) (v : Val) :
    ((parseBool s).isSome = true ↔ (s ≠ "" ∧ (goParseBool s).isSome = true)) ∧
    (parseBool s = some v → v = Val.str s) ∧
    (Builder.addFilterFieldsForBoolFields { bWitness with filterFields := [] } "flag_" "flag"
        parseBool false).filterFields =
      [("flag", ⟨"flag" ++ " = ?", parseBool, nopWrapper, false⟩),
        ("flag_" ++ opEqual, ⟨"flag" ++ " = ?", parseBool, nopWrapper, false⟩),
        ("flag_" ++ opNotEqual, ⟨"flag" ++ " <> ?", parseBool, nopWrapper, false⟩)] := by
  refine ⟨?_, ?_, rfl⟩
  · by_cases h : s = ""
    · subst h
      simp [parseBool]
    · rcases hb : goParseBool s with _ | bv <;> simp [parseBool, h, hb]
  · intro hv
    by_cases h : s = ""
    · subst h
      simp [parseBool] at hv
    · rcases hb : goParseBool s with _ | bv
      · simp [parseBool, h, hb] at hv
      · simp [parseBool, h, hb] at hv
        exact hv.symm

/-- Witness for C10 at the raw value `TRUE`. -/
theorem claimC10_witness :
    (((parseBool "TRUE").isSome = true ↔ ("TRUE" ≠ "" ∧ (goParseBool "TRUE").isSome = true)) ∧
      (parseBool "TRUE" = some (Val.str "TRUE") → Val.str "TRUE" = Val.str "TRUE") ∧
      (Builder.addFilterFieldsForBoolFields { bWitness with filterFields := [] } "flag_" "flag"
          parseBool false).filterFields =
        [("flag", ⟨"flag" ++ " = ?", parseBool, nopWrapper, false⟩),
          ("flag_" ++ opEqual, ⟨"flag" ++ " = ?", parseBool, nopWrapper, false⟩),
          ("flag_" ++ opNotEqual, ⟨"flag" ++ " <> ?", parseBool, nopWrapper, false⟩)]) :=
  claimC10 "TRUE" (Val.str "TRUE")

/-! ### Parse pipeline helper lemmas -/

lemma applySearch_keeps_scalars (b : Builder) (params : Params) (q : DBQuery) :
    (b.applySearch params q).Limit = q.Limit ∧
    (b.applySearch params q).Offset = q.Offset ∧
    (b.applySearch params q).«Sort» = q.«Sort» ∧
    (b.applySearch params q).Select = q.Select := by
  unfold Builder.applySearch
  rcases getAllParams params searchParam with _ | terms <;>
    rcases hs : b.searcher with _ | f <;> simp [DBQuery.And]

lemma Parse_of_limit_error {b : Builder} {params : Params} {e : ParseError}
    (h : b.parseLimitParam params = .error e) : b.Parse params = .error e := by
  unfold Builder.Parse
  rw [h]

lemma Parse_ok_limit {b : Builder} {params : Params} {q : DBQuery} {n : Int}
    (hL : b.parseLimitParam params = .ok n) (hq : b.Parse params = .ok q) :
    q.Limit = n := by
  unfold Builder.Parse at hq
  rw [hL] at hq
  rcases h2 : b.parseOffsetParam params with e2 | off <;> rw [h2] at hq
  · exact Except.noConfusion hq
  rcases h3 : b.parseSortParam params with e3 | srt <;> rw [h3] at hq
  · exact Except.noConfusion hq
  rcases h4 : b.parseFilter params with e4 | ev <;> rw [h4] at hq
  · exact Except.noConfusion hq
  rcases ev with ⟨exp, val⟩
  have := (applySearch_keeps_scalars b params
    { Limit := n, Offset := off, «Sort» := srt, CondExp := exp, CondVal := val,
      Select := joinSep "," b.selectFields }).1
  rw [Except.ok.inj hq] at this
  exact this

/-! ### Claim C5 -/

/-- Claim C5: with the limit parameter present and non-empty, `Parse` fails
with the corresponding validation error exactly when the value is not an
integer, is negative, or exceeds a configured maximum (`-1` disables the
maximum); an in-range value is accepted as the descriptor limit, and an
absent or empty limit parameter yields the configured default limit. -/
theorem claimC5 (b : Builder) (params : Params) (v : String) (n : Int) (q : DBQuery)
    (hv : getParam params b.LimitParam = v) :
    (v ≠ "" → atoi v = none →
      b.Parse params = .error ⟨"invalid value(" ++ v ++ ") for key " ++ b.LimitParam⟩) ∧
    (v ≠ "" → atoi v = some n → n < 0 →
      b.Parse params = .error ⟨"value for key " ++ b.LimitParam ++
        " must be greater than or equal to " ++ toString (0 : Int)⟩) ∧
    (v ≠ "" → atoi v = some n → ¬n < 0 → b.LimitMaxValue ≠ -1 → n > b.LimitMaxValue →
      b.Parse params = .error ⟨"value for key " ++ b.LimitParam ++
        " must be less than or equal to " ++ toString b.LimitMaxValue⟩) ∧
    (v ≠ "" → atoi v = some n → ¬n < 0 → (b.LimitMaxValue = -1 ∨ n ≤ b.LimitMaxValue) →
      b.parseLimitParam params = .ok n ∧ (b.Parse params = .ok q → q.Limit = n)) ∧
    (v = "" → b.parseLimitParam params = .ok b.DefaultLimit ∧
      (b.Parse params = .ok q → q.Limit = b.DefaultLimit)) := by
  refine ⟨?_, ?_, ?_, ?_, ?_⟩
  · intro hne ha
    refine Parse_of_limit_error ?_
    unfold Builder.parseLimitParam parseNumber
    rw [hv]
    simp [hne, ha]
  · intro hne ha hn
    refine Parse_of_limit_error ?_
    unfold Builder.parseLimitParam parseNumber
    rw [hv]
    simp [hne, ha, hn]
  · intro hne ha hn hmax hgt
    refine Parse_of_limit_error ?_
    unfold Builder.parseLimitParam parseNumber
    rw [hv]
    simp [hne, ha, hn, hmax, hgt]
  · intro hne ha hn hle
    have hL : b.parseLimitParam params = .ok n := by
      unfold Builder.parseLimitParam parseNumber
      rw [hv]
      rcases hle with hm1 | hlem
      · simp [hne, ha, hn, hm1]
      · have hngt : ¬n > b.LimitMaxValue := not_lt.mpr hlem
        simp [hne, ha, hn, hngt]
    exact ⟨hL, fun hq => Parse_ok_limit hL hq⟩
  · intro he
    have hL : b.parseLimitParam params = .ok b.DefaultLimit := by
      unfold Builder.parseLimitParam
      rw [hv, he]
      simp
    exact ⟨hL, fun hq => Parse_ok_limit hL hq⟩

/-- Witness for C5: limit=101 errors under the maximum 100, limit=0 is
accepted, and a non-numeric limit errors, at the concrete builder. -/
theorem claimC5_witness :
    bWitness.Parse [("limit", ["101"])] = .error ⟨"value for key " ++ bWitness.LimitParam ++
      " must be less than or equal to " ++ toString bWitness.LimitMaxValue⟩ ∧
    bWitness.parseLimitParam [("limit", ["0"])] = .ok 0 ∧
    bWitness.Parse [("limit", ["abc"])] =
      .error ⟨"invalid value(" ++ "abc" ++ ") for key " ++ bWitness.LimitParam⟩ :=
  ⟨(claimC5 bWitness [("limit", ["101"])] "101" 101 {} rfl).2.2.1 (by decide) (by decide)
      (by decide) (by decide) (by decide),
    ((claimC5 bWitness [("limit", ["0"])] "0" 0 {} rfl).2.2.2.1 (by decide) (by decide)
      (by decide) (Or.inr (by decide))).1,
    (claimC5 bWitness [("limit", ["abc"])] "abc" 0 {} rfl).1 (by decide) (by decide)⟩

/-! ### Claim C4 -/

lemma parseFilterArgs_of_all_parse (f : FilterField) (name : String) :
    ∀ (args : List String) (vals : List Val),
      args.map f.parse = vals.map some →
      parseFilterArgs f name args = .ok (vals, List.replicate args.length f.exp) := by
  intro args
  induction args with
  | nil =>
    intro vals h
    cases vals with
    | nil => rfl
    | cons v vs => simp at h
  | cons a rest ih =>
    intro vals h
    cases vals with
    | nil => simp at h
    | cons v vs =>
      simp only [List.map_cons, List.cons.injEq] at h
      simp [parseFilterArgs, h.1, ih vs h.2, List.replicate_succ]

/-- Claim C4: for a filter key whose supplied values all parse, a single
value yields the bare fragment template with no surrounding parentheses,
while N&gt;1 values yield the template repeated N times, OR-joined and
parenthesized; the parsed values are appended in the order supplied (the
wrap transform is applied after this shaping). -/
theorem claimC4 (f : FilterField) (name : String) (args : List String) (vals : List Val)
    (hsplit : splitArgs f args = args)
    (hparse : args.map f.parse = vals.map some) :
    (args.length = 1 → parseFilterKey f name args = .ok (f.wrap f.exp, vals)) ∧
    (args.length > 1 → parseFilterKey f name args =
      .ok (f.wrap ("(" ++ joinSep " OR " (List.replicate args.length f.exp) ++ ")"), vals)) := by
  constructor
  · intro h1
    unfold parseFilterKey
    rw [hsplit]
    simp only [parseFilterArgs_of_all_parse f name args vals hparse]
    rcases args with _ | ⟨a, rest⟩
    · simp at h1
    rcases rest with _ | ⟨a2, r2⟩
    · simp [joinSep]
    · simp at h1
  · intro h1
    unfold parseFilterKey
    rw [hsplit]
    simp only [parseFilterArgs_of_all_parse f name args vals hparse]
    simp [h1]

/-- Witness for C4: the string key `name_eq` with the two raw values `a8m`
and `pos`. -/
theorem claimC4_witness :
    (([("a8m" : String), "pos"].length = 1 →
      parseFilterKey ⟨"name = ?", parseString, nopWrapper, false⟩ "name_eq" ["a8m", "pos"] =
        .ok (nopWrapper "name = ?", [Val.str "a8m", Val.str "pos"])) ∧
    ([("a8m" : String), "pos"].length > 1 →
      parseFilterKey ⟨"name = ?", parseString, nopWrapper, false⟩ "name_eq" ["a8m", "pos"] =
        .ok (nopWrapper ("(" ++ joinSep " OR "
            (List.replicate (["a8m", "pos"] : List String).length "name = ?") ++ ")"),
          [Val.str "a8m", Val.str "pos"]))) :=
  claimC4 ⟨"name = ?", parseString, nopWrapper, false⟩ "name_eq" ["a8m", "pos"]
    [Val.str "a8m", Val.str "pos"] rfl (by decide)

/-! ### Claim C8 -/

/-- Claim C8: for a comma-split filter key, a single raw value `a,b` and the
two separate raw values `a`, `b` produce identical per-key results (same
OR fragments and same bound values, in order); the split happens only
when exactly one raw value was supplied. -/
theorem claimC8 (f : FilterField) (name v1 v2 : String) (args2 : List String)
    (hsplit : f.splitOnComma = true)
    (h1 : containsChar v1 ',' = false)
    (h2 : containsChar v2 ',' = false)
    (hlen : args2.length ≠ 1) :
    parseFilterKey f name [v1 ++ "," ++ v2] = parseFilterKey f name [v1, v2] ∧
    splitArgs f args2 = args2 := by
  have hcm : ',' ∈ (v1 ++ "," ++ v2).toList := by
    simp [toList_append]
  have hcc : containsChar (v1 ++ "," ++ v2) ',' = true := by
    rw [containsChar, List.any_eq_true]
    exact ⟨',', hcm, rfl⟩
  have hA : splitArgs f [v1 ++ "," ++ v2] = [v1, v2] := by
    simp [splitArgs, hsplit, hcc, goSplit_pair v1 v2 h1 h2]
  have hB : splitArgs f [v1, v2] = [v1, v2] := by
    simp [splitArgs]
  constructor
  · unfold parseFilterKey
    rw [hA, hB]
  · simp [splitArgs, hlen]

/-- Witness for C8: the comma-split key given `a,b` versus `a` and `b`, and
a two-value list that must not be split. -/
theorem claimC8_witness :
    parseFilterKey ⟨"tag_name = ?", parseString, nopWrapper, true⟩ "tag_name"
        ["a" ++ "," ++ "b"] =
      parseFilterKey ⟨"tag_name = ?", parseString, nopWrapper, true⟩ "tag_name" ["a", "b"] ∧
    splitArgs ⟨"tag_name = ?", parseString, nopWrapper, true⟩ ["a", "b"] = ["a", "b"] :=
  claimC8 ⟨"tag_name = ?", parseString, nopWrapper, true⟩ "tag_name" "a" "b" ["a", "b"]
    rfl (by decide) (by decide) (by decide)

/-! ### Claim C7 -/

lemma searchBody_vals (op : String) (f : String → String × List Val) :
    ∀ ts : List String, (searchBody op f ts).2 = (ts.map (fun x => (f x).2)).flatten := by
  intro ts
  induction ts with
  | nil => rfl
  | cons t rest ih =>
    rcases rest with _ | ⟨t2, r2⟩
    · simp [searchBody]
    · simp [searchBody, ih]

lemma searchBody_exp (op : String) (f : String → String × List Val) :
    ∀ (t : String) (ts : List String),
      (searchBody op f (t :: ts)).1 = joinSep (" " ++ op ++ " ") ((t :: ts).map (fun x => (f x).1)) := by
  intro t ts
  induction ts generalizing t with
  | nil => rfl
  | cons t2 r2 ih =>
    have hL : (searchBody op f (t :: t2 :: r2)).1 =
        (f t).1 ++ " " ++ op ++ " " ++ (searchBody op f (t2 :: r2)).1 := rfl
    rw [hL, ih t2]
    simp [joinSep, String.append_assoc]

/-- Claim C7: the per-term search expressions are joined in term order by
the configured search operator, parenthesized exactly when more than one
term was supplied, the per-term values are collected in term order, and
`DBQuery.And` appends the result to the existing filter expression with
`" AND "` only when another filter expression is already present. -/
theorem claimC7 (op : String) (f : String → String × List Val) (t : String) (ts : List String)
    (q : DBQuery) (e : String) (vs : List Val) :
    ((parseSearch op f (t :: ts)).2 = ((t :: ts).map (fun x => (f x).2)).flatten) ∧
    (ts = [] → (parseSearch op f [t]).1 = (f t).1) ∧
    (ts ≠ [] → (parseSearch op f (t :: ts)).1 =
      "(" ++ joinSep (" " ++ op ++ " ") ((t :: ts).map (fun x => (f x).1)) ++ ")") ∧
    (q.CondExp = "" → (q.And e vs).CondExp = e) ∧
    (q.CondExp ≠ "" → (q.And e vs).CondExp = q.CondExp ++ " AND " ++ e) ∧
    ((q.And e vs).CondVal = q.CondVal ++ vs) := by
  refine ⟨?_, ?_, ?_, ?_, ?_, rfl⟩
  · rcases ts with _ | ⟨t2, r2⟩
    · simp [parseSearch, searchBody]
    · simp [parseSearch, searchBody_vals]
  · intro h
    subst h
    rfl
  · intro h
    have hlen : (t :: ts).length > 1 := by
      rcases ts with _ | ⟨t2, r2⟩
      · exact absurd rfl h
      · simp
    have hpos : 0 < ts.length := by
      rcases ts with _ | ⟨t2, r2⟩
      · exact absurd rfl h
      · simp
    unfold parseSearch
    simp [hpos, searchBody_exp]
  · intro h
    unfold DBQuery.And
    simp only [h]
    have h0 : (("" : String) != "") = false := rfl
    rw [h0]
    simp only [Bool.false_eq_true, if_false]
    cases e
    rfl
  · intro h
    unfold DBQuery.And
    simp [h]

/-- The model search hook used by the witnesses (the hook of the
repository's own test model). -/
def searchHookW : String → String × List Val :=
  fun v => ("(name = ? OR status LIKE ?)", [Val.str v, Val.str ("%" ++ v ++ "%")])

/-- Witness for C7: two search terms `foo`, `bar` with operator `AND`,
appended to a descriptor that already filters on `age > ?`. -/
theorem claimC7_witness :
    ((parseSearch "AND" searchHookW ("foo" :: ["bar"])).2 =
      (("foo" :: ["bar"]).map (fun x => (searchHookW x).2)).flatten) ∧
    (["bar"] = ([] : List String) →
      (parseSearch "AND" searchHookW ["foo"]).1 = (searchHookW "foo").1) ∧
    (["bar"] ≠ ([] : List String) →
      (parseSearch "AND" searchHookW ("foo" :: ["bar"])).1 =
        "(" ++ joinSep (" " ++ "AND" ++ " ")
          (("foo" :: ["bar"]).map (fun x => (searchHookW x).1)) ++ ")") ∧
    (({ CondExp := "age > ?", CondVal := [Val.int 10] } : DBQuery).CondExp = "" →
      (DBQuery.And { CondExp := "age > ?", CondVal := [Val.int 10] } "((name = ? OR status LIKE ?) AND (name = ? OR status LIKE ?))"
          [Val.str "foo", Val.str "%foo%", Val.str "bar", Val.str "%bar%"]).CondExp =
        "((name = ? OR status LIKE ?) AND (name = ? OR status LIKE ?))") ∧
    (({ CondExp := "age > ?", CondVal := [Val.int 10] } : DBQuery).CondExp ≠ "" →
      (DBQuery.And { CondExp := "age > ?", CondVal := [Val.int 10] } "((name = ? OR status LIKE ?) AND (name = ? OR status LIKE ?))"
          [Val.str "foo", Val.str "%foo%", Val.str "bar", Val.str "%bar%"]).CondExp =
        ({ CondExp := "age > ?", CondVal := [Val.int 10] } : DBQuery).CondExp ++ " AND " ++
          "((name = ? OR status LIKE ?) AND (name = ? OR status LIKE ?))") ∧
    ((DBQuery.And { CondExp := "age > ?", CondVal := [Val.int 10] } "((name = ? OR status LIKE ?) AND (name = ? OR status LIKE ?))"
        [Val.str "foo", Val.str "%foo%", Val.str "bar", Val.str "%bar%"]).CondVal =
      ({ CondExp := "age > ?", CondVal := [Val.int 10] } : DBQuery).CondVal ++
        [Val.str "foo", Val.str "%foo%", Val.str "bar", Val.str "%bar%"]) :=
  claimC7 "AND" searchHookW "foo" ["bar"] { CondExp := "age > ?", CondVal := [Val.int 10] }
    "((name = ? OR status LIKE ?) AND (name = ? OR status LIKE ?))"
    [Val.str "foo", Val.str "%foo%", Val.str "bar", Val.str "%bar%"]

/-! ### Claim C6 -/

/-- Claim C6: `Parse` validates limit, offset, sort and filter in that fixed
order; the first failing stage's error is returned and short-circuits all
later stages; when every stage succeeds the fully assembled descriptor
(with the search block applied) is returned — an error case never carries
a descriptor. -/
theorem claimC6 (b : Builder) (params : Params) (e : ParseError) (lim off : Int)
    (srt : String) (ev : String × List Val) :
    (b.parseLimitParam params = .error e → b.Parse params = .error e) ∧
    (b.parseLimitParam params = .ok lim → b.parseOffsetParam params = .error e →
      b.Parse params = .error e) ∧
    (b.parseLimitParam params = .ok lim → b.parseOffsetParam params = .ok off →
      b.parseSortParam params = .error e → b.Parse params = .error e) ∧
    (b.parseLimitParam params = .ok lim → b.parseOffsetParam params = .ok off →
      b.parseSortParam params = .ok srt → b.parseFilter params = .error e →
      b.Parse params = .error e) ∧
    (b.parseLimitParam params = .ok lim → b.parseOffsetParam params = .ok off →
      b.parseSortParam params = .ok srt → b.parseFilter params = .ok ev →
      b.Parse params = .ok (b.applySearch params
        { Limit := lim, Offset := off, «Sort» := srt, CondExp := ev.1, CondVal := ev.2,
          Select := joinSep "," b.selectFields })) ∧
    (b.Parse params = .error e →
      b.parseLimitParam params = .error e ∨
      ((b.parseLimitParam params).isOk = true ∧ b.parseOffsetParam params = .error e) ∨
      ((b.parseLimitParam params).isOk = true ∧ (b.parseOffsetParam params).isOk = true ∧
        b.parseSortParam params = .error e) ∨
      ((b.parseLimitParam params).isOk = true ∧ (b.parseOffsetParam params).isOk = true ∧
        (b.parseSortParam params).isOk = true ∧ b.parseFilter params = .error e)) := by
  refine ⟨?_, ?_, ?_, ?_, ?_, ?_⟩
  · intro h1
    unfold Builder.Parse
    rw [h1]
  · intro h1 h2
    unfold Builder.Parse
    rw [h1, h2]
  · intro h1 h2 h3
    unfold Builder.Parse
    rw [h1, h2, h3]
  · intro h1 h2 h3 h4
    unfold Builder.Parse
    rw [h1, h2, h3, h4]
  · intro h1 h2 h3 h4
    unfold Builder.Parse
    rw [h1, h2, h3, h4]
  · intro hp
    unfold Builder.Parse at hp
    rcases h1 : b.parseLimitParam params with e1 | l1 <;> rw [h1] at hp
    · exact Or.inl (congrArg Except.error (Except.error.inj hp))
    rcases h2 : b.parseOffsetParam params with e2 | o2 <;> rw [h2] at hp
    · exact Or.inr (Or.inl ⟨rfl, congrArg Except.error (Except.error.inj hp)⟩)
    rcases h3 : b.parseSortParam params with e3 | s3 <;> rw [h3] at hp
    · exact Or.inr (Or.inr (Or.inl ⟨rfl, rfl, congrArg Except.error (Except.error.inj hp)⟩))
    rcases h4 : b.parseFilter params with e4 | v4 <;> rw [h4] at hp
    · exact Or.inr (Or.inr (Or.inr ⟨rfl, rfl, rfl,
        congrArg Except.error (Except.error.inj hp)⟩))
    · rcases v4 with ⟨exp, val⟩
      exact Except.noConfusion hp

/-- Witness for C6 at a request whose first failing stage is the sort stage. -/
theorem claimC6_witness :
    (bWitness.parseLimitParam [("sort", ["bogus"])] =
        .error ⟨"invalid sort parameter bogus"⟩ →
      bWitness.Parse [("sort", ["bogus"])] = .error ⟨"invalid sort parameter bogus"⟩) ∧
    (bWitness.parseLimitParam [("sort", ["bogus"])] = .ok 25 →
      bWitness.parseOffsetParam [("sort", ["bogus"])] =
          .error ⟨"invalid sort parameter bogus"⟩ →
      bWitness.Parse [("sort", ["bogus"])] = .error ⟨"invalid sort parameter bogus"⟩) ∧
    (bWitness.parseLimitParam [("sort", ["bogus"])] = .ok 25 →
      bWitness.parseOffsetParam [("sort", ["bogus"])] = .ok 0 →
      bWitness.parseSortParam [("sort", ["bogus"])] =
          .error ⟨"invalid sort parameter bogus"⟩ →
      bWitness.Parse [("sort", ["bogus"])] = .error ⟨"invalid sort parameter bogus"⟩) ∧
    (bWitness.parseLimitParam [("sort", ["bogus"])] = .ok 25 →
      bWitness.parseOffsetParam [("sort", ["bogus"])] = .ok 0 →
      bWitness.parseSortParam [("sort", ["bogus"])] = .ok "" →
      bWitness.parseFilter [("sort", ["bogus"])] = .error ⟨"invalid sort parameter bogus"⟩ →
      bWitness.Parse [("sort", ["bogus"])] = .error ⟨"invalid sort parameter bogus"⟩) ∧
    (bWitness.parseLimitParam [("sort", ["bogus"])] = .ok 25 →
      bWitness.parseOffsetParam [("sort", ["bogus"])] = .ok 0 →
      bWitness.parseSortParam [("sort", ["bogus"])] = .ok "" →
      bWitness.parseFilter [("sort", ["bogus"])] = .ok ("", []) →
      bWitness.Parse [("sort", ["bogus"])] = .ok (bWitness.applySearch [("sort", ["bogus"])]
        { Limit := 25, Offset := 0, «Sort» := "", CondExp := ("", ([] : List Val)).1,
          CondVal := ("", ([] : List Val)).2,
          Select := joinSep "," bWitness.selectFields })) ∧
    (bWitness.Parse [("sort", ["bogus"])] = .error ⟨"invalid sort parameter bogus"⟩ →
      bWitness.parseLimitParam [("sort", ["bogus"])] =
          .error ⟨"invalid sort parameter bogus"⟩ ∨
      ((bWitness.parseLimitParam [("sort", ["bogus"])]).isOk = true ∧
        bWitness.parseOffsetParam [("sort", ["bogus"])] =
          .error ⟨"invalid sort parameter bogus"⟩) ∨
      ((bWitness.parseLimitParam [("sort", ["bogus"])]).isOk = true ∧
        (bWitness.parseOffsetParam [("sort", ["bogus"])]).isOk = true ∧
        bWitness.parseSortParam [("sort", ["bogus"])] =
          .error ⟨"invalid sort parameter bogus"⟩) ∨
      ((bWitness.parseLimitParam [("sort", ["bogus"])]).isOk = true ∧
        (bWitness.parseOffsetParam [("sort", ["bogus"])]).isOk = true ∧
        (bWitness.parseSortParam [("sort", ["bogus"])]).isOk = true ∧
        bWitness.parseFilter [("sort", ["bogus"])] =
          .error ⟨"invalid sort parameter bogus"⟩)) :=
  claimC6 bWitness [("sort", ["bogus"])] ⟨"invalid sort parameter bogus"⟩ 25 0 ""
    ("", [])

/-! ### Claim C9 -/

mutual

/-- The leaf fields reachable from one model field. -/
def leavesOf : ModelFieldT → List LeafField
  | .leaf f => [f]
  | .embedded fs => leavesList fs

/-- The leaf fields reachable from a list of model fields. -/
def leavesList : List ModelFieldT → List LeafField
  | [] => []
  | t :: ts => leavesOf t ++ leavesList ts

end

/-- A filterable leaf field whose value type matches none of the supported
categories: the condition under which `parseField` aborts. -/
def unsupportedLeaf (tagName : String) (f : LeafField) : Bool :=
  contains (goSplit (tagOf f.tags tagName) ',') filterTag &&
    (f.typ == FieldType.other false false false false)

lemma appendToSelect_TagName (b : Builder) (c : String) (go o : List String) :
    (b.appendToSelect c go o).TagName = b.TagName := by
  unfold Builder.appendToSelect
  split
  · rfl
  · split
    · rfl
    · rfl

lemma addFilterFieldW_TagName (b : Builder) (n fo : String) (pa : String → Option Val)
    (sc : Bool) (w : String → String) : (b.addFilterFieldW n fo pa sc w).TagName = b.TagName :=
  rfl

lemma addStringField_TagName (b : Builder) (c w : String) (sc : Bool)
    (wr : String → String) : (b.addStringField c w sc wr).TagName = b.TagName := by
  unfold Builder.addStringField
  simp only [addFilterFieldW_TagName]

lemma addNumericFields_TagName (b : Builder) (w c : String) (pa : String → Option Val)
    (sc : Bool) : (b.addFilterFieldsForNumericFields w c pa sc).TagName = b.TagName := by
  unfold Builder.addFilterFieldsForNumericFields Builder.addFilterField
  simp only [addFilterFieldW_TagName]

lemma addBoolFields_TagName (b : Builder) (w c : String) (pa : String → Option Val)
    (sc : Bool) : (b.addFilterFieldsForBoolFields w c pa sc).TagName = b.TagName := by
  unfold Builder.addFilterFieldsForBoolFields Builder.addFilterField
  simp only [addFilterFieldW_TagName]

set_option maxHeartbeats 1600000 in
/-- Method `parseField` keeps the configured tag name, and it fails exactly on a
filterable field of an unsupported value type. -/
lemma parseField_spec (b : Builder) (f : LeafField) :
    (unsupportedLeaf b.TagName f = true →
      b.parseField f = .error ("Could not use field " ++ f.name ++ " with query filter")) ∧
    (∀ b2 : Builder, b.parseField f = .ok b2 → b2.TagName = b.TagName) := by
  constructor
  · intro hu
    rw [unsupportedLeaf, Bool.and_eq_true] at hu
    obtain ⟨hfil, htypb⟩ := hu
    have htyp : f.typ = FieldType.other false false false false := eq_of_beq htypb
    unfold Builder.parseField
    dsimp only
    simp only [hfil, htyp, Bool.not_true, Bool.false_eq_true, if_false, Bool.or_self,
      Bool.false_or, Bool.or_false]
  · intro b2 h
    unfold Builder.parseField at h
    dsimp only at h
    repeat' split at h
    all_goals try exact Except.noConfusion h
    all_goals injection h with h2
    all_goals subst h2
    all_goals simp [appendToSelect_TagName, addStringField_TagName, addNumericFields_TagName,
      addBoolFields_TagName]

/-- A model field-tree containing a filterable field of an unsupported value
type makes the whole `init` worklist loop fail. -/
lemma initLoop_err (f : LeafField) (b : Builder) (cur : List ModelFieldT)
    (pending : List (List ModelFieldT)) :
    unsupportedLeaf b.TagName f = true →
    (f ∈ leavesList cur ∨ ∃ g ∈ pending, f ∈ leavesList g) →
    (initLoop b cur pending).isOk = false := by
  induction b, cur, pending using initLoop.induct with
  | case1 b =>
    intro hu hmem
    rcases hmem with h | ⟨g, hg, _⟩
    · simp [leavesList] at h
    · simp at hg
  | case2 b g pending ih =>
    intro hu hmem
    rw [initLoop]
    apply ih hu
    rcases hmem with h | ⟨g2, hg2, hfm⟩
    · simp [leavesList] at h
    · rcases List.mem_cons.mp hg2 with rfl | hg2
      · exact Or.inl hfm
      · exact Or.inr ⟨g2, hg2, hfm⟩
  | case3 b fl rest pending e herr =>
    intro hu hmem
    rw [initLoop, herr]
    rfl
  | case4 b fl rest pending b2 hok ih =>
    intro hu hmem
    rcases hmem with h | ⟨g, hg, hfm⟩
    · rw [leavesList, leavesOf] at h
      rcases List.mem_append.mp h with h1 | h2
      · have hf : f = fl := List.mem_singleton.mp h1
        subst hf
        have := (parseField_spec b f).1 hu
        rw [this] at hok
        exact Except.noConfusion hok
      · rw [initLoop, hok]
        have hT : b2.TagName = b.TagName := (parseField_spec b fl).2 b2 hok
        exact ih (by rw [hT]; exact hu) (Or.inl h2)
    · rw [initLoop, hok]
      have hT : b2.TagName = b.TagName := (parseField_spec b fl).2 b2 hok
      exact ih (by rw [hT]; exact hu) (Or.inr ⟨g, hg, hfm⟩)
  | case5 b fs rest pending ih =>
    intro hu hmem
    rw [initLoop]
    apply ih hu
    rcases hmem with h | ⟨g, hg, hfm⟩
    · rw [leavesList, leavesOf] at h
      rcases List.mem_append.mp h with h1 | h2
      · exact Or.inr ⟨fs, by simp, h1⟩
      · exact Or.inl h2
    · exact Or.inr ⟨g, List.mem_cons_of_mem fs hg, hfm⟩

/-- Claim C9: a missing model definition makes `NewBuilder` return the
configuration error, and a model containing a filterable field of an
unsupported value type makes construction abort with a fatal error
instead of producing a builder. -/
theorem claimC9 (c : Config) (m : ModelT) (f : LeafField) :
    (c.Model = none → NewBuilder c = .error "query: Model is a required field") ∧
    (c.Model = some m → f ∈ leavesList m.fields →
      unsupportedLeaf (defaultString c.TagName "query") f = true →
      (NewBuilder c).isOk = false) := by
  constructor
  · intro h
    unfold NewBuilder
    rw [h]
  · intro hm hf hu
    unfold NewBuilder
    rw [hm]
    dsimp only
    apply initLoop_err f
    · have hTN : (if c.fillDefaults.OnlySelectNonDetailedFields = true then
          { c.fillDefaults with ExplicitSelect := true } else c.fillDefaults).TagName =
          defaultString c.TagName "query" := by
        split <;> rfl
      rw [hTN]
      exact hu
    · exact Or.inl hf

/-- The configuration of the C9 witness: one filterable field whose value
type supports none of the categories. -/
def c9badConfig : Config :=
  { Model := some
      { fields := [.leaf ⟨"Weird", .other false false false false, [("query", "filter")], none⟩]
        searcher := none } }

/-- Witness for C9: a missing model errors, and the unsupported-type model
fails construction. -/
theorem claimC9_witness :
    NewBuilder { Model := none } = .error "query: Model is a required field" ∧
    (NewBuilder c9badConfig).isOk = false :=
  ⟨(claimC9 { Model := none }
      { fields := [], searcher := none }
      ⟨"Weird", .other false false false false, [("query", "filter")], none⟩).1 rfl,
    (claimC9 c9badConfig
      { fields := [.leaf ⟨"Weird", .other false false false false, [("query", "filter")], none⟩]
        searcher := none }
      ⟨"Weird", .other false false false false, [("query", "filter")], none⟩).2 rfl
      (by simp [leavesList, leavesOf]) (by decide)⟩

/-! ### Claim C1 -/

lemma placeholderCount_joinSep (sep : String) (h : placeholderCount sep = 0) :
    ∀ l : List String, placeholderCount (joinSep sep l) = (l.map placeholderCount).sum := by
  intro l
  induction l with
  | nil => rfl
  | cons x xs ih =>
    rcases xs with _ | ⟨y, ys⟩
    · simp [joinSep]
    · have hJ : joinSep sep (x :: y :: ys) = x ++ sep ++ joinSep sep (y :: ys) := rfl
      rw [hJ, placeholderCount_append, placeholderCount_append, h, ih]
      simp

lemma placeholderCount_paren (s : String) :
    placeholderCount ("(" ++ s ++ ")") = placeholderCount s := by
  rw [placeholderCount_append, placeholderCount_append]
  have h1 : placeholderCount "(" = 0 := rfl
  have h2 : placeholderCount ")" = 0 := rfl
  omega

lemma parseFilterArgs_ok_shape (f : FilterField) (name : String) :
    ∀ (args : List String) (vals : List Val) (exps : List String),
      parseFilterArgs f name args = .ok (vals, exps) →
      exps = List.replicate vals.length f.exp := by
  intro args
  induction args with
  | nil =>
    intro vals exps h
    rw [parseFilterArgs] at h
    obtain ⟨h1, h2⟩ := Prod.mk.injEq .. ▸ Except.ok.inj h
    subst h1
    subst h2
    rfl
  | cons a rest ih =>
    intro vals exps h
    rw [parseFilterArgs] at h
    rcases hp : f.parse a with _ | v <;> rw [hp] at h
    · exact Except.noConfusion h
    rcases hr : parseFilterArgs f name rest with e | ⟨vs, es⟩ <;> rw [hr] at h
    · exact Except.noConfusion h
    obtain ⟨h1, h2⟩ := Prod.mk.injEq .. ▸ Except.ok.inj h
    subst h1
    subst h2
    rw [List.length_cons, List.replicate_succ, ih vs es hr]

lemma parseFilterKey_count (f : FilterField) (name : String) (args : List String)
    (e : String) (vals : List Val)
    (hexp : placeholderCount f.exp = 1)
    (hwrap : ∀ s, placeholderCount (f.wrap s) = placeholderCount s)
    (h : parseFilterKey f name args = .ok (e, vals)) :
    placeholderCount e = vals.length := by
  unfold parseFilterKey at h
  rcases hr : parseFilterArgs f name (splitArgs f args) with er | ⟨vs, es⟩ <;>
    simp only [hr] at h
  · exact Except.noConfusion h
  have hes : es = List.replicate vs.length f.exp := parseFilterArgs_ok_shape f name _ vs es hr
  obtain ⟨h1, h2⟩ := Prod.mk.injEq .. ▸ Except.ok.inj h
  subst h2
  rw [← h1, hwrap]
  have hjoin : placeholderCount (joinSep " OR " es) = vs.length := by
    rw [placeholderCount_joinSep " OR " rfl, hes, List.map_replicate, hexp,
      List.sum_replicate, smul_eq_mul, Nat.mul_one]
  split
  · rw [placeholderCount_paren, hjoin]
  · rw [hjoin]

lemma parseFilterFields_count (params : Params) :
    ∀ (fields : List (String × FilterField)) (es : List String) (vs : List Val),
      (∀ nf ∈ fields, placeholderCount nf.2.exp = 1 ∧
        ∀ s, placeholderCount (nf.2.wrap s) = placeholderCount s) →
      parseFilterFields params fields = .ok (es, vs) →
      (es.map placeholderCount).sum = vs.length := by
  intro fields
  induction fields with
  | nil =>
    intro es vs _ h
    rw [parseFilterFields] at h
    obtain ⟨h1, h2⟩ := Prod.mk.injEq .. ▸ Except.ok.inj h
    subst h1
    subst h2
    rfl
  | cons nf rest ih =>
    intro es vs hyp h
    rcases nf with ⟨name, fl⟩
    rw [parseFilterFields] at h
    rcases hg : getAllParams params name with _ | args <;> rw [hg] at h
    · exact ih es vs (fun x hx => hyp x (List.mem_cons_of_mem _ hx)) h
    dsimp only at h
    rcases hk : parseFilterKey fl name args with ek | ⟨e1, v1⟩ <;> rw [hk] at h
    · exact Except.noConfusion h
    rcases hr : parseFilterFields params rest with er | ⟨es2, vs2⟩ <;> rw [hr] at h
    · exact Except.noConfusion h
    obtain ⟨h1, h2⟩ := Prod.mk.injEq .. ▸ Except.ok.inj h
    subst h1
    subst h2
    have hhead := hyp (name, fl) (by simp)
    have he1 : placeholderCount e1 = v1.length :=
      parseFilterKey_count fl name args e1 v1 hhead.1 hhead.2 hk
    have htail := ih es2 vs2 (fun x hx => hyp x (List.mem_cons_of_mem _ hx)) hr
    simp [he1, htail]

lemma parseFilter_count (b : Builder) (params : Params) (exp : String) (vals : List Val)
    (hf : ∀ nf ∈ b.filterFields, placeholderCount nf.2.exp = 1 ∧
      ∀ s, placeholderCount (nf.2.wrap s) = placeholderCount s)
    (h : b.parseFilter params = .ok (exp, vals)) :
    placeholderCount exp = vals.length := by
  unfold Builder.parseFilter at h
  rcases hr : parseFilterFields params b.filterFields with er | ⟨es, vs⟩ <;> rw [hr] at h
  · exact Except.noConfusion h
  obtain ⟨h1, h2⟩ := Prod.mk.injEq .. ▸ Except.ok.inj h
  subst h2
  rw [← h1, placeholderCount_joinSep " AND " rfl]
  exact parseFilterFields_count params b.filterFields es vs hf hr

lemma searchBody_count (op : String) (f : String → String × List Val)
    (hs : ∀ t, placeholderCount (f t).1 = (f t).2.length)
    (hop : placeholderCount op = 0) :
    ∀ ts : List String,
      placeholderCount (searchBody op f ts).1 = (searchBody op f ts).2.length := by
  intro ts
  induction ts with
  | nil => rfl
  | cons t rest ih =>
    rcases rest with _ | ⟨t2, r2⟩
    · exact hs t
    · have hL : searchBody op f (t :: t2 :: r2) =
          ((f t).1 ++ " " ++ op ++ " " ++ (searchBody op f (t2 :: r2)).1,
            (f t).2 ++ (searchBody op f (t2 :: r2)).2) := rfl
      rw [hL]
      simp only [placeholderCount_append, List.length_append]
      have hsp : placeholderCount " " = 0 := rfl
      rw [hsp, hop, hs t, ih]
      omega

lemma parseSearch_count (op : String) (f : String → String × List Val)
    (terms : List String)
    (hs : ∀ t, placeholderCount (f t).1 = (f t).2.length)
    (hop : placeholderCount op = 0) :
    placeholderCount (parseSearch op f terms).1 = (parseSearch op f terms).2.length := by
  unfold parseSearch
  split
  · rw [placeholderCount_paren]
    exact searchBody_count op f hs hop terms
  · exact searchBody_count op f hs hop terms

lemma And_count (q : DBQuery) (e : String) (vs : List Val) :
    placeholderCount (q.And e vs).CondExp =
      placeholderCount q.CondExp + placeholderCount e ∧
    (q.And e vs).CondVal.length = q.CondVal.length + vs.length := by
  unfold DBQuery.And
  constructor
  · split
    · rw [placeholderCount_append, placeholderCount_append]
      have h0 : placeholderCount " AND " = 0 := rfl
      omega
    · rw [placeholderCount_append]
  · simp

lemma applySearch_count (b : Builder) (params : Params) (q : DBQuery)
    (hs : ∀ f, b.searcher = some f → ∀ t, placeholderCount (f t).1 = (f t).2.length)
    (hop : placeholderCount b.SearchOperator = 0)
    (h : placeholderCount q.CondExp = q.CondVal.length) :
    placeholderCount (b.applySearch params q).CondExp =
      (b.applySearch params q).CondVal.length := by
  unfold Builder.applySearch
  rcases getAllParams params searchParam with _ | terms
  · exact h
  rcases hsr : b.searcher with _ | f
  · exact h
  have hcnt := parseSearch_count b.SearchOperator f terms (hs f hsr) hop
  have hand := And_count q (parseSearch b.SearchOperator f terms).1
    (parseSearch b.SearchOperator f terms).2
  rw [hand.1, hand.2, h, hcnt]

/-- Claim C1: for a compiled builder (every filter-field template carries
exactly one placeholder) whose wrap transforms preserve placeholder
counts and whose search hook produces one placeholder per value, every
descriptor `Parse` returns satisfies: the number of `?` placeholders in
`CondExp` equals the length of `CondVal`. -/
theorem claimC1 (b : Builder) (params : Params) (q : DBQuery)
    (hf : ∀ nf ∈ b.filterFields, placeholderCount nf.2.exp = 1 ∧
      ∀ s, placeholderCount (nf.2.wrap s) = placeholderCount s)
    (hs : ∀ f, b.searcher = some f → ∀ t, placeholderCount (f t).1 = (f t).2.length)
    (hop : placeholderCount b.SearchOperator = 0)
    (hok : b.Parse params = .ok q) :
    placeholderCount q.CondExp = q.CondVal.length := by
  unfold Builder.Parse at hok
  rcases h1 : b.parseLimitParam params with e1 | lim <;> rw [h1] at hok
  · exact Except.noConfusion hok
  rcases h2 : b.parseOffsetParam params with e2 | off <;> rw [h2] at hok
  · exact Except.noConfusion hok
  rcases h3 : b.parseSortParam params with e3 | srt <;> rw [h3] at hok
  · exact Except.noConfusion hok
  rcases h4 : b.parseFilter params with e4 | ev <;> rw [h4] at hok
  · exact Except.noConfusion hok
  rcases ev with ⟨exp, val⟩
  have hbase : placeholderCount exp = val.length := parseFilter_count b params exp val hf h4
  rw [← Except.ok.inj hok]
  exact applySearch_count b params
    { Limit := lim, Offset := off, «Sort» := srt, CondExp := exp, CondVal := val,
      Select := joinSep "," b.selectFields } hs hop hbase

/-- The C1 witness builder: `bWitness` with the test model search hook. -/
def bWitnessS : Builder := { bWitness with searcher := some searchHookW }

/-- The descriptor produced by the C1 witness request. -/
def qC1 : DBQuery :=
  { Limit := 25
    Offset := 0
    «Sort» := ""
    CondExp := "age > ? AND (name = ? OR name = ?) AND ((name = ? OR status LIKE ?) AND (name = ? OR status LIKE ?))"
    CondVal := [Val.int 10, Val.str "a8m", Val.str "pos", Val.str "foo", Val.str "%foo%",
      Val.str "bar", Val.str "%bar%"]
    Select := "" }

/-- Witness for C1: a request with an int filter, a multi-valued string
filter and two search terms, whose descriptor has as many placeholders as
bound values. -/
theorem claimC1_witness :
    bWitnessS.Parse
        [("age_gt", ["10"]), ("name_eq", ["a8m", "pos"]), ("search", ["foo", "bar"])] =
      .ok qC1 ∧
    placeholderCount qC1.CondExp = qC1.CondVal.length :=
  ⟨rfl, claimC1 bWitnessS
    [("age_gt", ["10"]), ("name_eq", ["a8m", "pos"]), ("search", ["foo", "bar"])] qC1
    (by
      intro nf hnf
      simp only [bWitnessS, bWitness, List.mem_cons, List.mem_singleton,
        List.not_mem_nil, or_false] at hnf
      rcases hnf with rfl | rfl
      · exact ⟨by decide, fun s => rfl⟩
      · exact ⟨by decide, fun s => rfl⟩)
    (by
      intro f hf t
      cases Option.some.inj hf
      rfl)
    (by decide)
    rfl⟩

end SwaggerQuery
